import Mathlib

/-!
Verification development for the ocp-midstreamer build/deploy/reconcile core.

Rust strings are modelled as Lean `String` (a wrapper around `List Char`),
`HashMap` lookups as association-list lookups, fallible functions as
`Except String`, and the cluster / process side effects as explicit oracle
functions and traces.  Each definition is a direct translation of the named
source function; file and line references point into the repository.
-/

/-! ## Rust string primitives -/

/-- Rust `str::starts_with`: the pattern is a prefix of the string. -/
def rsStartsWith (s pat : String) : Bool :=
  decide (pat.data <+: s.data)

/-- Rust `str::contains`: the pattern occurs as a contiguous substring. -/
def rsContains (s pat : String) : Bool :=
  decide (pat.data <:+: s.data)

/-- Rust `str::strip_prefix`: `some` of the remainder when the pattern is a
prefix of the string, otherwise `none`. -/
def rsStripPre (pat s : String) : Option String :=
  if pat.data <+: s.data then some ⟨s.data.drop pat.data.length⟩ else none

/-! ## Data model (src/src/config.rs, src/src/component.rs) -/

/-- `ComponentConfig` from src/src/config.rs: per-component static
configuration.  The `images` map (short image name → IMAGE_ env key) is an
association list. -/
structure ComponentConfig where
  repo : String
  import_paths : List String
  images : List (String × String)
  build_system : Option String
  installer_set_pre : Option String
deriving Repr, DecidableEq

/-- `ComponentSpec` from src/src/component.rs lines 15-21. -/
structure ComponentSpec where
  name : String
  git_ref : Option String
  as_of_date : Option String
deriving Repr, DecidableEq

/-- `resolve_git_ref` from src/src/component.rs lines 98-104: map `pr/NNN`
to `refs/pull/NNN/head`, pass every other ref through unchanged. -/
def resolve_git_ref (userRef : String) : String :=
  match rsStripPre "pr/" userRef with
  | some prNum => "refs/pull/" ++ prNum ++ "/head"
  | none => userRef

/-! ## Image mappings (src/src/deploy/mapping.rs) -/

/-- The `for image_name in built_images` loop of `build_image_mappings`
(src/src/deploy/mapping.rs lines 21-33): look each built image up in the
component's `images` map, failing on the first image with no entry. -/
def imageMappingsLoop (images : List (String × String))
    (component registry : String) :
    List String → Except String (List (String × String))
  | [] => .ok []
  | imageName :: rest =>
    match images.lookup imageName with
    | none =>
      .error s!"No IMAGE_ mapping found for built image '{imageName}' in component '{component}'"
    | some envVar =>
      match imageMappingsLoop images component registry rest with
      | .error e => .error e
      | .ok tail => .ok ((envVar, registry ++ "/" ++ imageName) :: tail)

/-- `build_image_mappings` from src/src/deploy/mapping.rs lines 9-40. -/
def build_image_mappings (config : List (String × ComponentConfig))
    (component registry : String) (built_images : List String) :
    Except String (List (String × String)) :=
  match config.lookup component with
  | none => .error s!"Component '{component}' not found in config"
  | some comp =>
    match imageMappingsLoop comp.images component registry built_images with
    | .error e => .error e
    | .ok mappings =>
      if mappings.isEmpty then
        .error s!"No image mappings produced for component '{component}'"
      else
        .ok mappings

/-! ## Deployment env patching (src/src/deploy/operator.rs) -/

/-- A Kubernetes container environment variable (`EnvVar`): name, optional
literal value, optional indirect value source (modelled opaquely). -/
structure EnvVar where
  name : String
  value : Option String
  valueFrom : Option String
deriving Repr, DecidableEq

/-- The env-merge of `patch_operator_deployment_env`
(src/src/deploy/operator.rs lines 139-163): update every existing variable
whose name matches a mapping key (set its value, clear `valueFrom`), then
append the mappings whose key was not among the (pre-append) names. -/
def mergeEnvs (mappings : List (String × String)) (existing : List EnvVar) :
    List EnvVar :=
  let newEnvs := existing.map (fun env =>
    match mappings.find? (fun m => m.1 == env.name) with
    | some m => { env with value := some m.2, valueFrom := none }
    | none => env)
  let existingNames := newEnvs.map (fun e => e.name)
  newEnvs ++
    (mappings.filter (fun m => !(existingNames.any (fun n => n == m.1)))).map
      (fun m => { name := m.1, value := some m.2, valueFrom := none })

/-- A container of a Deployment pod template (name and env list). -/
structure Container where
  name : String
  env : Option (List EnvVar)
deriving Repr, DecidableEq

/-- A Deployment, reduced to `spec.template.spec.containers`
(`none` models a missing spec). -/
structure Deployment where
  containers : Option (List Container)
deriving Repr, DecidableEq

/-- The in-memory mutation of `patch_operator_deployment_env`
(src/src/deploy/operator.rs lines 123-165): find the first container named
`openshift-pipelines-operator-lifecycle` and merge the mappings into its env
list; error when the spec or the container is missing. -/
def patchLifecycleContainers (mappings : List (String × String)) :
    List Container → Option (List Container)
  | [] => none
  | c :: rest =>
    if c.name == "openshift-pipelines-operator-lifecycle" then
      some ({ c with env := some (mergeEnvs mappings (c.env.getD [])) } :: rest)
    else
      (patchLifecycleContainers mappings rest).map (fun cs => c :: cs)

/-- `patch_operator_deployment_env` (src/src/deploy/operator.rs
lines 109-180), up to the cluster read/replace: the pure transformation it
applies to the Deployment it read. -/
def patch_operator_deployment_env (mappings : List (String × String))
    (dep : Deployment) : Except String Deployment :=
  match dep.containers with
  | none => .error "Deployment has no containers in spec.template.spec.containers"
  | some containers =>
    match patchLifecycleContainers mappings containers with
    | none =>
      .error "Container 'openshift-pipelines-operator-lifecycle' not found in Deployment"
    | some patched => .ok { containers := some patched }

/-! ## Installer-set invalidation (src/src/deploy/operator.rs lines 319-368) -/

/-- The prefixes computed by `delete_installer_sets`
(src/src/deploy/operator.rs lines 341-347). -/
def installerSetMatchPrefixes (component : String) (preOverride : Option String) :
    List String :=
  let p := preOverride.getD component
  [p ++ "-main-deployment-", p ++ "-main-static-", p ++ "-post-", p ++ "-pre-"]

/-- The deletion loop of `delete_installer_sets` (src/src/deploy/operator.rs
lines 349-365): attempt to delete every listed set whose name starts with one
of the prefixes; a failed deletion is only warned about.  `deleteOk` is the
cluster oracle saying whether a given deletion succeeds.  Returns the success
count together with the trace of names on which deletion was attempted. -/
def deleteInstallerSetsLoop (prefixes : List String) (deleteOk : String → Bool) :
    List String → Nat × List String
  | [] => (0, [])
  | name :: rest =>
    if prefixes.any (fun p => rsStartsWith name p) then
      let r := deleteInstallerSetsLoop prefixes deleteOk rest
      ((if deleteOk name then r.1 + 1 else r.1), name :: r.2)
    else
      deleteInstallerSetsLoop prefixes deleteOk rest

/-- `delete_installer_sets` (src/src/deploy/operator.rs lines 319-368) on the
listed installer-set names. -/
def delete_installer_sets (component : String) (preOverride : Option String)
    (sets : List String) (deleteOk : String → Bool) : Nat × List String :=
  deleteInstallerSetsLoop (installerSetMatchPrefixes component preOverride)
    deleteOk sets

/-! ## Reconciliation waiter (src/src/deploy/wait.rs) -/

/-- One `status.conditions` entry of the TektonConfig, with the fields read
by `check_tektonconfig_ready` (missing JSON fields are read as `""`). -/
structure TCCondition where
  ctype : String
  cstatus : String
deriving Repr, DecidableEq

/-- `check_tektonconfig_ready` (src/src/deploy/wait.rs lines 75-112): true
iff some condition has type `Ready` and status `True`. -/
def check_tektonconfig_ready (conditions : List TCCondition) : Bool :=
  conditions.any (fun c => c.ctype == "Ready" && c.cstatus == "True")

/-- A pod, reduced to its containers' optional image references. -/
structure Pod where
  containerImages : List (Option String)
deriving Repr, DecidableEq

/-- The image collection of `verify_pod_images` (src/src/deploy/wait.rs
lines 124-147): every present container image of every listed pod. -/
def collectPodImages (pods : List Pod) : List String :=
  (pods.map (fun p => p.containerImages.filterMap (fun i => i))).flatten

/-- `verify_pod_images` (src/src/deploy/wait.rs lines 118-166): every
expected image ref must match (substring in either direction) some collected
pod container image. -/
def verify_pod_images (pods : List Pod)
    (expected_images : List (String × String)) : Bool :=
  let found_images := collectPodImages pods
  expected_images.all (fun e =>
    found_images.any (fun img => rsContains img e.2 || rsContains e.2 img))

/-- What one poll of `wait_for_reconciliation` observes on the cluster. -/
structure ClusterObs where
  tcConditions : List TCCondition
  pods : List Pod

/-- The per-poll convergence check of `wait_for_reconciliation`
(src/src/deploy/wait.rs lines 37-47): the pod images are only consulted when
the TektonConfig is Ready, and convergence needs both in the same poll. -/
def reconcilePollOnce (obs : ClusterObs)
    (expected_images : List (String × String)) : Bool :=
  let config_ready := check_tektonconfig_ready obs.tcConditions
  let images_ok :=
    if config_ready then verify_pod_images obs.pods expected_images else false
  config_ready && images_ok

/-- Trace of a backoff loop: attempts used, delays slept between attempts
(in order), and whether it returned successfully. -/
structure BackoffTrace where
  attempts : Nat
  delays : List Nat
  success : Bool
deriving Repr, DecidableEq

/-- The retry loop of `wait_for_reconciliation` (src/src/deploy/wait.rs
lines 27-57): attempts are numbered from `a`, the current delay is `d`, and
`fuel` is the number of attempts still allowed.  After an unsuccessful
attempt that is not the last, the loop sleeps `d` seconds and doubles the
delay, capping it at `capSecs = 30`. -/
def waitLoop (obs : Nat → ClusterObs) (expected : List (String × String)) :
    Nat → Nat → Nat → BackoffTrace
  | _, _, 0 => ⟨0, [], false⟩
  | a, d, fuel + 1 =>
    if reconcilePollOnce (obs a) expected then
      ⟨1, [], true⟩
    else if fuel = 0 then
      ⟨1, [], false⟩
    else
      let rest := waitLoop obs expected (a + 1) (min (d * 2) 30) fuel
      ⟨rest.attempts + 1, d :: rest.delays, rest.success⟩

/-- `wait_for_reconciliation` (src/src/deploy/wait.rs lines 15-57):
`max_retries = 20`, initial delay 10s, cap 30s. -/
def wait_for_reconciliation (obs : Nat → ClusterObs)
    (expected_images : List (String × String)) : BackoffTrace :=
  waitLoop obs expected_images 1 10 20

/-! ## Bootstrap (src/src/setup.rs) -/

/-- The CRD-registration retry loop of `ensure_tektonconfig`
(src/src/setup.rs lines 368-391): attempts numbered from `a`, current
backoff `b` seconds, `fuel` attempts still allowed.  After a failed attempt
that is not the last, it sleeps `b` and doubles it — with no cap. -/
def tektonconfigCreateLoop (create : Nat → Bool) :
    Nat → Nat → Nat → BackoffTrace
  | _, _, 0 => ⟨0, [], false⟩
  | a, b, fuel + 1 =>
    if create a then
      ⟨1, [], true⟩
    else if fuel = 0 then
      ⟨1, [], false⟩
    else
      let rest := tektonconfigCreateLoop create (a + 1) (b * 2) fuel
      ⟨rest.attempts + 1, b :: rest.delays, rest.success⟩

/-- `ensure_tektonconfig` (src/src/setup.rs lines 339-393): skip when the
TektonConfig already exists, otherwise create it with `max_retries = 6` and
backoff starting at 5s.  `create k` is the cluster oracle for whether the
k-th creation attempt succeeds. -/
def ensure_tektonconfig (tcExists : Bool) (create : Nat → Bool) : BackoffTrace :=
  if tcExists then ⟨0, [], true⟩ else tektonconfigCreateLoop create 1 5 6

/-- Labels of the six bootstrap steps of `run_auto_setup`
(src/src/setup.rs lines 17-93), in execution order. -/
def autoSetupStepLabels : List String :=
  ["Registry route setup", "Registry route wait", "Namespace/RBAC setup",
   "Operator install", "Operator ready wait", "TektonConfig setup"]

/-- One step block of `run_auto_setup`: on failure, append the labelled
error to the warning list; on success leave it unchanged. -/
def recordStep (warnings : List String) (label : String)
    (r : Except String Unit) : List String :=
  match r with
  | .ok _ => warnings
  | .error e => warnings ++ [label ++ ": " ++ e]

/-- `run_auto_setup` (src/src/setup.rs lines 12-105) given the six step
outcomes: every step is attempted, failures only accumulate warnings, and
the function itself returns `Ok(())`.  The warning list is returned
alongside to model the printed warnings. -/
def run_auto_setup (r1 r2 r3 r4 r5 r6 : Except String Unit) :
    List String × Except String Unit :=
  let w := recordStep [] "Registry route setup" r1
  let w := recordStep w "Registry route wait" r2
  let w := recordStep w "Namespace/RBAC setup" r3
  let w := recordStep w "Operator install" r4
  let w := recordStep w "Operator ready wait" r5
  let w := recordStep w "TektonConfig setup" r6
  (w, .ok ())

/-! ## Build coordinator (src/src/build.rs lines 270-377) -/

/-- The per-spec work of `build_components_parallel`
(src/src/build.rs lines 285-366): a spec whose name is missing from the
configuration map yields an immediate error outcome — the workspace / clone /
build pipeline (abstracted as the `pipeline` oracle, the only I/O) is never
invoked for it. -/
def buildOutcome (configs : List (String × ComponentConfig))
    (pipeline : ComponentSpec → ComponentConfig → Except String (List String))
    (spec : ComponentSpec) : String × Except String (List String) :=
  match configs.lookup spec.name with
  | none => (spec.name, .error "component not in config")
  | some cfg => (spec.name, pipeline spec cfg)

/-- `build_components_parallel` (src/src/build.rs lines 270-377): one
outcome per spec. -/
def build_components_parallel (specs : List ComponentSpec)
    (configs : List (String × ComponentConfig))
    (pipeline : ComponentSpec → ComponentConfig → Except String (List String)) :
    List (String × Except String (List String)) :=
  specs.map (buildOutcome configs pipeline)

/-! ## Theorems -/

/-- Claim C8: `resolve_git_ref` maps `pr/NNN` to `refs/pull/NNN/head`, and
every input that does not start with `pr/` is returned unchanged. -/
theorem resolve_git_ref_spec :
    (∀ rest : String,
      resolve_git_ref ("pr/" ++ rest) = "refs/pull/" ++ rest ++ "/head") ∧
    (∀ s : String, rsStartsWith s "pr/" = false → resolve_git_ref s = s) := by
  constructor
  · intro rest
    have hpre : "pr/".data <+: ("pr/" ++ rest).data := by
      rw [String.data_append]; exact List.prefix_append _ _
    have hdrop : (("pr/" ++ rest).data).drop ("pr/".data.length) = rest.data := by
      rw [String.data_append]; exact List.drop_left _ _
    simp only [resolve_git_ref, rsStripPre, if_pos hpre, hdrop]
  · intro s h
    have hnp : ¬ ("pr/".data <+: s.data) := by
      simpa [rsStartsWith] using h
    simp [resolve_git_ref, rsStripPre, hnp]

/-- Witness for C8 at the spec's round-trip example and at a tag ref. -/
theorem resolve_git_ref_spec_witness :
    resolve_git_ref "pr/123" = "refs/pull/123/head" ∧
    resolve_git_ref "v0.60.0" = "v0.60.0" :=
  ⟨resolve_git_ref_spec.1 "123", resolve_git_ref_spec.2 "v0.60.0" (by decide)⟩

/-- The deletion loop attempts exactly the prefix-matching names and counts
exactly the successful deletions. -/
theorem deleteInstallerSetsLoop_trace (prefixes : List String)
    (deleteOk : String → Bool) :
    ∀ sets : List String,
      (deleteInstallerSetsLoop prefixes deleteOk sets).2
        = sets.filter (fun n => prefixes.any (fun p => rsStartsWith n p))
      ∧ (deleteInstallerSetsLoop prefixes deleteOk sets).1
        = (((deleteInstallerSetsLoop prefixes deleteOk sets).2).filter
            deleteOk).length
  | [] => by simp [deleteInstallerSetsLoop]
  | name :: rest => by
    have ih := deleteInstallerSetsLoop_trace prefixes deleteOk rest
    by_cases h : prefixes.any (fun p => rsStartsWith name p) = true
    · by_cases hd : deleteOk name = true
      · simp [deleteInstallerSetsLoop, h, hd, ih.1, ih.2, List.filter_cons]
      · simp [deleteInstallerSetsLoop, h, hd, ih.1, ih.2, List.filter_cons]
    · simp [deleteInstallerSetsLoop, h, ih.1, ih.2, List.filter_cons]

/-- Claim C6: `delete_installer_sets` attempts deletion on exactly the
listed sets whose names start with a computed prefix (independently of
earlier failures, as the attempted list does not depend on `deleteOk`),
returns the count of successful deletions, and on the spec's example
deletes `pipeline-main-deployment-abcd` while retaining
`pipelinesomethingelse-x`. -/
theorem delete_installer_sets_spec :
    (∀ (component : String) (preOverride : Option String) (sets : List String)
      (deleteOk : String → Bool),
      (delete_installer_sets component preOverride sets deleteOk).2
        = sets.filter (fun n =>
            (installerSetMatchPrefixes component preOverride).any
              (fun p => rsStartsWith n p))
      ∧ (delete_installer_sets component preOverride sets deleteOk).1
        = (((delete_installer_sets component preOverride sets deleteOk).2).filter
            deleteOk).length) ∧
    delete_installer_sets "pipeline" none
      ["pipeline-main-deployment-abcd", "pipelinesomethingelse-x"]
      (fun _ => true)
      = (1, ["pipeline-main-deployment-abcd"]) := by
  constructor
  · intro component preOverride sets deleteOk
    exact deleteInstallerSetsLoop_trace _ _ sets
  · decide

/-- Claim C7: whatever the six step outcomes, `run_auto_setup` returns
success, and its warning list is exactly the labelled errors of the failing
steps in order. -/
theorem run_auto_setup_spec :
    ∀ r1 r2 r3 r4 r5 r6 : Except String Unit,
      (run_auto_setup r1 r2 r3 r4 r5 r6).2 = Except.ok () ∧
      (run_auto_setup r1 r2 r3 r4 r5 r6).1
        = (autoSetupStepLabels.zip [r1, r2, r3, r4, r5, r6]).filterMap
            (fun lr => match lr.2 with
              | .ok _ => none
              | .error e => some (lr.1 ++ ": " ++ e)) := by
  intro r1 r2 r3 r4 r5 r6
  cases r1 <;> cases r2 <;> cases r3 <;> cases r4 <;> cases r5 <;> cases r6 <;>
    simp [run_auto_setup, recordStep, autoSetupStepLabels]

/-- Claim C9: a spec whose name is missing from the configuration yields the
immediate error outcome, the outcome list still has one entry per spec, and
that outcome does not depend on the build/clone I/O oracle at all. -/
theorem build_components_missing_config_spec :
    ∀ (specs : List ComponentSpec) (configs : List (String × ComponentConfig))
      (pipeline : ComponentSpec → ComponentConfig → Except String (List String))
      (i : Nat) (h : i < specs.length),
      configs.lookup specs[i].name = none →
      (build_components_parallel specs configs pipeline).length = specs.length
      ∧ (build_components_parallel specs configs pipeline)[i]?
          = some (specs[i].name, Except.error "component not in config")
      ∧ (∀ pipeline2,
          (build_components_parallel specs configs pipeline2)[i]?
            = (build_components_parallel specs configs pipeline)[i]?) := by
  intro specs configs pipeline i h hmiss
  refine ⟨by simp [build_components_parallel], ?_, ?_⟩
  · simp [build_components_parallel, List.getElem?_map,
      List.getElem?_eq_getElem h, buildOutcome, hmiss]
  · intro p2
    simp [build_components_parallel, List.getElem?_map,
      List.getElem?_eq_getElem h, buildOutcome, hmiss]

/-- Witness for C9: one unconfigured spec, empty configuration map. -/
theorem build_components_missing_config_spec_witness :
    (build_components_parallel [⟨"pipeline", none, none⟩]
        ([] : List (String × ComponentConfig)) (fun _ _ => Except.ok []))[0]?
      = some ("pipeline", Except.error "component not in config") :=
  (build_components_missing_config_spec [⟨"pipeline", none, none⟩] []
      (fun _ _ => Except.ok []) 0 (by decide) (by decide)).2.1

/-- The mapping loop fails with the message naming the first built image
that has no entry in the component's image map. -/
theorem imageMappingsLoop_error (images : List (String × String))
    (component registry : String) :
    ∀ (built : List String) (img : String),
      built.find? (fun i => (images.lookup i).isNone) = some img →
      imageMappingsLoop images component registry built
        = .error s!"No IMAGE_ mapping found for built image '{img}' in component '{component}'"
  | [], img => by simp
  | imageName :: rest, img => by
    intro hfind
    rcases hlk : images.lookup imageName with _ | v
    · have : img = imageName := by
        simp [List.find?_cons, hlk] at hfind
        exact hfind.symm
      subst this
      simp [imageMappingsLoop, hlk]
    · have hrest : rest.find? (fun i => (images.lookup i).isNone) = some img := by
        simpa [List.find?_cons, hlk] using hfind
      have ih := imageMappingsLoop_error images component registry rest img hrest
      simp [imageMappingsLoop, hlk, ih]

/-- When every built image resolves, the loop returns one pair per image. -/
theorem imageMappingsLoop_ok (images : List (String × String))
    (component registry : String) :
    ∀ built : List String,
      (∀ img ∈ built, (images.lookup img).isSome) →
      imageMappingsLoop images component registry built
        = .ok (built.map (fun n =>
            ((images.lookup n).getD "", registry ++ "/" ++ n)))
  | [] => by simp [imageMappingsLoop]
  | imageName :: rest => by
    intro hall
    rcases hlk : images.lookup imageName with _ | v
    · exact absurd (hall imageName (by simp)) (by simp [hlk])
    · have ih := imageMappingsLoop_ok images component registry rest
        (fun img h => hall img (by simp [h]))
      simp [imageMappingsLoop, hlk, ih]

/-- Claim C5 (amended): with the component present in configuration, mapping
construction is all-or-nothing — if some built image has no image-map entry
it fails with an error naming the first such image and the component (and,
returning `Except`, produces no partial list); if every built image resolves
and the built list is non-empty it returns exactly one
(env key, registry-qualified reference) pair per built image.  (The code
also rejects an empty built list — see the counterexample.) -/
theorem build_image_mappings_all_or_nothing :
    ∀ (config : List (String × ComponentConfig)) (component registry : String)
      (built : List String) (comp : ComponentConfig),
      config.lookup component = some comp →
      (∀ img, built.find? (fun i => (comp.images.lookup i).isNone) = some img →
        build_image_mappings config component registry built
          = .error s!"No IMAGE_ mapping found for built image '{img}' in component '{component}'")
      ∧ (built ≠ [] → (∀ img ∈ built, (comp.images.lookup img).isSome) →
        build_image_mappings config component registry built
          = .ok (built.map (fun n =>
              ((comp.images.lookup n).getD "", registry ++ "/" ++ n)))) := by
  intro config component registry built comp hcomp
  constructor
  · intro img hfind
    have h := imageMappingsLoop_error comp.images component registry built img hfind
    simp [build_image_mappings, hcomp, h]
  · intro hne hall
    have h := imageMappingsLoop_ok comp.images component registry built hall
    have hmapne : built.map (fun n =>
        ((comp.images.lookup n).getD "", registry ++ "/" ++ n)) ≠ [] := by
      simpa using hne
    simp [build_image_mappings, hcomp, h, List.isEmpty_iff, hmapne]

/-- Witness for C5 at a concrete one-image configuration. -/
theorem build_image_mappings_all_or_nothing_witness :
    build_image_mappings
      [("pipeline", ⟨"https://github.com/tektoncd/pipeline", [],
        [("controller", "IMAGE_PIPELINE_CONTROLLER")], none, none⟩)]
      "pipeline" "reg" ["controller"]
      = .ok [("IMAGE_PIPELINE_CONTROLLER", "reg/controller")] := by
  have h := (build_image_mappings_all_or_nothing
      [("pipeline", ⟨"https://github.com/tektoncd/pipeline", [],
        [("controller", "IMAGE_PIPELINE_CONTROLLER")], none, none⟩)]
      "pipeline" "reg" ["controller"]
      ⟨"https://github.com/tektoncd/pipeline", [],
        [("controller", "IMAGE_PIPELINE_CONTROLLER")], none, none⟩
      (by decide)).2 (by decide) (by decide)
  simpa using h

/-- Counterexample to C5 as stated: with the component configured and an
empty built-image list — so no built image lacks a mapping — the claim
demands one pair per built image (i.e. `.ok []`), but the code rejects the
empty mapping list with an error. -/
theorem build_image_mappings_empty_counterexample :
    build_image_mappings
      [("pipeline", ⟨"https://github.com/tektoncd/pipeline", [],
        [("controller", "IMAGE_PIPELINE_CONTROLLER")], none, none⟩)]
      "pipeline" "reg" []
      = .error "No image mappings produced for component 'pipeline'" := by
  rfl

/-- The per-variable update performed by the env merge: overwrite the value
and clear `valueFrom` when the name matches a mapping key. -/
def updEnv (mappings : List (String × String)) (env : EnvVar) : EnvVar :=
  match mappings.find? (fun m => m.1 == env.name) with
  | some m => { env with value := some m.2, valueFrom := none }
  | none => env

/-- `mergeEnvs` split into its updated part and its appended part. -/
theorem mergeEnvs_eq (mappings : List (String × String)) (existing : List EnvVar) :
    mergeEnvs mappings existing
      = existing.map (updEnv mappings)
        ++ (mappings.filter (fun m =>
            !(((existing.map (updEnv mappings)).map (fun e => e.name)).any
              (fun n => n == m.1)))).map
            (fun m => { name := m.1, value := some m.2, valueFrom := none }) := rfl

theorem updEnv_name (mappings : List (String × String)) (env : EnvVar) :
    (updEnv mappings env).name = env.name := by
  rcases h : mappings.find? (fun m => m.1 == env.name) with _ | m <;>
    simp [updEnv, h]

theorem names_map_updEnv (mappings : List (String × String)) (envs : List EnvVar) :
    (envs.map (updEnv mappings)).map (fun e => e.name)
      = envs.map (fun e => e.name) := by
  rw [List.map_map]
  exact List.map_congr_left (fun e _ => updEnv_name mappings e)

/-- Updating twice is the same as updating once. -/
theorem updEnv_updEnv (mappings : List (String × String)) (env : EnvVar) :
    updEnv mappings (updEnv mappings env) = updEnv mappings env := by
  rcases h : mappings.find? (fun m => m.1 == env.name) with _ | m
  · simp [updEnv, h]
  · simp only [updEnv, h]

/-- With pairwise-distinct keys, `find?` by the key of a member returns that
member. -/
theorem find?_key_of_nodup (mappings : List (String × String))
    (hnd : (mappings.map (fun m => m.1)).Nodup) (m : String × String)
    (hm : m ∈ mappings) :
    mappings.find? (fun x => x.1 == m.1) = some m := by
  induction mappings with
  | nil => cases hm
  | cons hd tl ih =>
    rw [List.map_cons] at hnd
    have hnd' := List.nodup_cons.mp hnd
    rcases List.mem_cons.mp hm with rfl | hmt
    · simp [List.find?_cons]
    · have hne : hd.1 ≠ m.1 := by
        intro he
        exact hnd'.1 (he ▸ List.mem_map_of_mem (fun x => x.1) hmt)
      have hf : ¬ ((fun x : String × String => x.1 == m.1) hd = true) := by
        simpa using hne
      rw [List.find?_cons_of_neg tl hf]
      exact ih hnd'.2 hmt

/-- The merged list mentions every mapping key among its names. -/
theorem mergeEnvs_keys_present (mappings : List (String × String))
    (envs : List EnvVar) (m : String × String) (hm : m ∈ mappings) :
    ((mergeEnvs mappings envs).map (fun e => e.name)).any
      (fun n => n == m.1) = true := by
  rw [mergeEnvs_eq, List.map_append, List.any_append, names_map_updEnv]
  by_cases hb : (envs.map (fun e => e.name)).any (fun n => n == m.1) = true
  · rw [hb, Bool.true_or]
  · rw [Bool.or_eq_true]
    right
    rw [List.map_map, List.any_eq_true]
    refine ⟨_, List.mem_map_of_mem _ (List.mem_filter.mpr ⟨hm, ?_⟩), by simp⟩
    simpa using hb

/-- Mapping the per-variable update over an already-merged list changes
nothing, when the mapping keys are pairwise distinct. -/
theorem map_updEnv_mergeEnvs (mappings : List (String × String))
    (hnd : (mappings.map (fun m => m.1)).Nodup) (envs : List EnvVar) :
    (mergeEnvs mappings envs).map (updEnv mappings) = mergeEnvs mappings envs := by
  rw [mergeEnvs_eq, List.map_append]
  congr 1
  · rw [List.map_map]
    exact List.map_congr_left (fun e _ => updEnv_updEnv mappings e)
  · rw [List.map_map]
    refine List.map_congr_left ?_
    intro m hmf
    have hm := (List.mem_filter.mp hmf).1
    have hfind := find?_key_of_nodup mappings hnd m hm
    simp [updEnv, hfind]

/-- Claim C2 (amended): when the mapping list has pairwise-distinct keys,
applying the env-merge of `patch_operator_deployment_env` twice in
succession yields exactly the env list of applying it once — no duplicate
entries, no drift.  (With a repeated key the merge is not idempotent — see
the counterexample.) -/
theorem mergeEnvs_idempotent :
    ∀ (mappings : List (String × String)) (envs : List EnvVar),
      (mappings.map (fun m => m.1)).Nodup →
      mergeEnvs mappings (mergeEnvs mappings envs) = mergeEnvs mappings envs := by
  intro mappings envs hnd
  rw [mergeEnvs_eq mappings (mergeEnvs mappings envs)]
  have hnil : mappings.filter (fun m =>
      !((((mergeEnvs mappings envs).map (updEnv mappings)).map
        (fun e => e.name)).any (fun n => n == m.1))) = [] := by
    rw [names_map_updEnv]
    refine List.filter_eq_nil_iff.mpr ?_
    intro m hm
    simp [mergeEnvs_keys_present mappings envs m hm]
  rw [hnil]
  simp only [List.map_nil, List.append_nil]
  exact map_updEnv_mergeEnvs mappings hnd envs

/-- Witness for C2 at a concrete single-mapping merge. -/
theorem mergeEnvs_idempotent_witness :
    mergeEnvs [("IMAGE_A", "reg/a")]
        (mergeEnvs [("IMAGE_A", "reg/a")] [⟨"OTHER", some "x", none⟩])
      = mergeEnvs [("IMAGE_A", "reg/a")] [⟨"OTHER", some "x", none⟩] :=
  mergeEnvs_idempotent [("IMAGE_A", "reg/a")] [⟨"OTHER", some "x", none⟩]
    (by decide)

/-- Counterexample to C2 as stated: with the same key `K` mapped twice, the
first application appends two `K` entries (the append loop checks a stale
name list) and the second application rewrites both to the first value, so
applying twice differs from applying once. -/
theorem mergeEnvs_idempotent_counterexample :
    mergeEnvs [("K", "a"), ("K", "b")] (mergeEnvs [("K", "a"), ("K", "b")] [])
      ≠ mergeEnvs [("K", "a"), ("K", "b")] [] := by
  decide

/-- Claim C3: after the env-merge, every pre-existing variable whose name is
not a mapping key is exactly the variable it was before — same value, same
`valueFrom`, same position. -/
theorem mergeEnvs_frame :
    ∀ (mappings : List (String × String)) (envs : List EnvVar) (i : Nat)
      (h : i < envs.length),
      (∀ m ∈ mappings, m.1 ≠ envs[i].name) →
      (mergeEnvs mappings envs)[i]? = some envs[i] := by
  intro mappings envs i h hm
  rw [mergeEnvs_eq, List.getElem?_append]
  have hlt : i < (envs.map (updEnv mappings)).length := by simpa using h
  rw [if_pos hlt, List.getElem?_map, List.getElem?_eq_getElem h]
  have hfind : mappings.find? (fun m => m.1 == envs[i].name) = none := by
    refine List.find?_eq_none.mpr ?_
    intro x hx
    simpa using hm x hx
  simp [updEnv, hfind]

/-- Witness for C3: a `PATH` variable with a `valueFrom` survives a merge
whose only key is `IMAGE_A`. -/
theorem mergeEnvs_frame_witness :
    (mergeEnvs [("IMAGE_A", "reg/a")]
        [⟨"PATH", some "/bin", some "fieldRef"⟩])[0]?
      = some ⟨"PATH", some "/bin", some "fieldRef"⟩ :=
  mergeEnvs_frame [("IMAGE_A", "reg/a")] [⟨"PATH", some "/bin", some "fieldRef"⟩]
    0 (by decide) (by decide)

/-- Claim C10: the merged env list's names are exactly the pre-existing
names in their original relative order, followed by the keys of the mappings
not already present, in the order the mappings are given. -/
theorem mergeEnvs_order_spec :
    ∀ (mappings : List (String × String)) (envs : List EnvVar),
      (mergeEnvs mappings envs).map (fun e => e.name)
        = envs.map (fun e => e.name)
          ++ (mappings.filter (fun m =>
              !((envs.map (fun e => e.name)).any (fun n => n == m.1)))).map
              (fun m => m.1) := by
  intro mappings envs
  rw [mergeEnvs_eq, List.map_append, names_map_updEnv, List.map_map]
  rfl

/-- The waiter loop uses at most its remaining attempt budget. -/
theorem waitLoop_attempts_le (obs : Nat → ClusterObs)
    (expected : List (String × String)) :
    ∀ (fuel a d : Nat), (waitLoop obs expected a d fuel).attempts ≤ fuel
  | 0, a, d => by simp [waitLoop]
  | fuel + 1, a, d => by
    by_cases h : reconcilePollOnce (obs a) expected = true
    · simp [waitLoop, h]
    · by_cases hf : fuel = 0
      · simp [waitLoop, h, hf]
      · have ih := waitLoop_attempts_le obs expected fuel (a + 1) (min (d * 2) 30)
        simp only [waitLoop, h, hf]
        simp [h, hf]
        omega

/-- Waiter-loop delay invariant: starting from a delay within the 30s cap,
the slept delays are non-decreasing and all within `[d, 30]`. -/
theorem waitLoop_delays_inv (obs : Nat → ClusterObs)
    (expected : List (String × String)) :
    ∀ (fuel a d : Nat), d ≤ 30 →
      List.Chain' (· ≤ ·) ((waitLoop obs expected a d fuel).delays)
      ∧ ∀ x ∈ (waitLoop obs expected a d fuel).delays, d ≤ x ∧ x ≤ 30
  | 0, a, d => by intro h; simp [waitLoop]
  | fuel + 1, a, d => by
    intro h
    by_cases hp : reconcilePollOnce (obs a) expected = true
    · simp [waitLoop, hp]
    · by_cases hf : fuel = 0
      · simp [waitLoop, hp, hf]
      · have hd' : min (d * 2) 30 ≤ 30 := Nat.min_le_right _ _
        have hdd' : d ≤ min (d * 2) 30 := Nat.le_min.mpr ⟨by omega, h⟩
        have ih := waitLoop_delays_inv obs expected fuel (a + 1) (min (d * 2) 30) hd'
        have hdl : (waitLoop obs expected a d (fuel + 1)).delays
            = d :: (waitLoop obs expected (a + 1) (min (d * 2) 30) fuel).delays := by
          simp [waitLoop, hp, hf]
        rw [hdl]
        constructor
        · refine List.chain'_cons'.mpr ⟨?_, ih.1⟩
          intro y hy
          have hmem := List.mem_of_mem_head? hy
          exact le_trans hdd' (ih.2 y hmem).1
        · intro x hx
          rcases List.mem_cons.mp hx with rfl | hx'
          · exact ⟨le_refl x, h⟩
          · exact ⟨le_trans hdd' (ih.2 x hx').1, (ih.2 x hx').2⟩

/-- A successful waiter run found a poll where the convergence check held. -/
theorem waitLoop_success_poll (obs : Nat → ClusterObs)
    (expected : List (String × String)) :
    ∀ (fuel a d : Nat), (waitLoop obs expected a d fuel).success = true →
      ∃ j, a ≤ j ∧ j < a + fuel ∧ reconcilePollOnce (obs j) expected = true
  | 0, a, d => by simp [waitLoop]
  | fuel + 1, a, d => by
    by_cases hp : reconcilePollOnce (obs a) expected = true
    · intro _
      exact ⟨a, le_refl a, by omega, hp⟩
    · by_cases hf : fuel = 0
      · simp [waitLoop, hp, hf]
      · intro hs
        have hs' : (waitLoop obs expected (a + 1) (min (d * 2) 30)
            fuel).success = true := by
          simpa [waitLoop, hp, hf] using hs
        obtain ⟨j, hj1, hj2, hj3⟩ :=
          waitLoop_success_poll obs expected fuel (a + 1) (min (d * 2) 30) hs'
        exact ⟨j, by omega, by omega, hj3⟩

/-- The CRD-retry loop uses at most its remaining attempt budget. -/
theorem tektonconfigCreateLoop_attempts_le (create : Nat → Bool) :
    ∀ (fuel a b : Nat), (tektonconfigCreateLoop create a b fuel).attempts ≤ fuel
  | 0, a, b => by simp [tektonconfigCreateLoop]
  | fuel + 1, a, b => by
    by_cases h : create a = true
    · simp [tektonconfigCreateLoop, h]
    · by_cases hf : fuel = 0
      · simp [tektonconfigCreateLoop, h, hf]
      · have ih := tektonconfigCreateLoop_attempts_le create fuel (a + 1) (b * 2)
        simp [tektonconfigCreateLoop, h, hf]
        omega

/-- CRD-retry delay invariant: the slept delays are non-decreasing and all
at least the current backoff (there is no upper cap). -/
theorem tektonconfigCreateLoop_delays_inv (create : Nat → Bool) :
    ∀ (fuel a b : Nat),
      List.Chain' (· ≤ ·) ((tektonconfigCreateLoop create a b fuel).delays)
      ∧ ∀ x ∈ (tektonconfigCreateLoop create a b fuel).delays, b ≤ x
  | 0, a, b => by simp [tektonconfigCreateLoop]
  | fuel + 1, a, b => by
    by_cases h : create a = true
    · simp [tektonconfigCreateLoop, h]
    · by_cases hf : fuel = 0
      · simp [tektonconfigCreateLoop, h, hf]
      · have ih := tektonconfigCreateLoop_delays_inv create fuel (a + 1) (b * 2)
        have hdl : (tektonconfigCreateLoop create a b (fuel + 1)).delays
            = b :: (tektonconfigCreateLoop create (a + 1) (b * 2) fuel).delays := by
          simp [tektonconfigCreateLoop, h, hf]
        rw [hdl]
        constructor
        · refine List.chain'_cons'.mpr ⟨?_, ih.1⟩
          intro y hy
          have hmem := List.mem_of_mem_head? hy
          have := ih.2 y hmem
          omega
        · intro x hx
          rcases List.mem_cons.mp hx with rfl | hx'
          · exact le_refl x
          · have := ih.2 x hx'
            omega

/-- Claim C1 (amended): in the reconciliation waiter the inter-attempt
delays are non-decreasing and never exceed the configured 30s cap, with at
most 20 attempts; in the CRD-registration retry of `ensure_tektonconfig`
the delays are non-decreasing and at most 6 attempts are made — but that
loop applies no cap to its doubling backoff (see the counterexample). -/
theorem backoff_monotone_bounded :
    ∀ (obs : Nat → ClusterObs) (expected : List (String × String))
      (tcExists : Bool) (create : Nat → Bool),
      List.Chain' (· ≤ ·) ((wait_for_reconciliation obs expected).delays)
      ∧ (∀ x ∈ (wait_for_reconciliation obs expected).delays, x ≤ 30)
      ∧ (wait_for_reconciliation obs expected).attempts ≤ 20
      ∧ List.Chain' (· ≤ ·) ((ensure_tektonconfig tcExists create).delays)
      ∧ (ensure_tektonconfig tcExists create).attempts ≤ 6 := by
  intro obs expected tcExists create
  have h1 := waitLoop_delays_inv obs expected 20 1 10 (by omega)
  have h2 := waitLoop_attempts_le obs expected 20 1 10
  refine ⟨h1.1, fun x hx => (h1.2 x hx).2, h2, ?_, ?_⟩
  · cases tcExists
    · have h := (tektonconfigCreateLoop_delays_inv create 6 1 5).1
      simpa [ensure_tektonconfig] using h
    · simp [ensure_tektonconfig]
  · cases tcExists
    · have h := tektonconfigCreateLoop_attempts_le create 6 1 5
      simpa [ensure_tektonconfig] using h
    · simp [ensure_tektonconfig]

/-- Counterexample to C1 as stated: when the TektonConfig is absent and
every creation attempt fails, the CRD-retry delays are 5, 10, 20, 40, 80
seconds — the loop has no configured cap, and its later delays exceed the
30s ceiling that caps the reconciliation waiter's backoff. -/
theorem ensure_tektonconfig_uncapped_counterexample :
    (ensure_tektonconfig false (fun _ => false)).delays = [5, 10, 20, 40, 80]
    ∧ ∃ x ∈ (ensure_tektonconfig false (fun _ => false)).delays, 30 < x := by
  decide

/-- Claim C4: the waiter declares convergence only at a poll where the
TektonConfig is Ready and every expected image matches some pod container
image; per poll the check is exactly that conjunction; and a poll with
Ready=True but one expected image matching no pod image is not converged. -/
theorem reconcile_requires_both :
    ∀ (obs : Nat → ClusterObs) (expected : List (String × String)),
      ((wait_for_reconciliation obs expected).success = true →
        ∃ k, 1 ≤ k ∧ k ≤ 20
          ∧ check_tektonconfig_ready (obs k).tcConditions = true
          ∧ verify_pod_images (obs k).pods expected = true)
      ∧ (∀ o : ClusterObs,
          reconcilePollOnce o expected = true ↔
            (check_tektonconfig_ready o.tcConditions = true
              ∧ verify_pod_images o.pods expected = true))
      ∧ (∀ o : ClusterObs, ∀ e ∈ expected,
          check_tektonconfig_ready o.tcConditions = true →
          (∀ img ∈ collectPodImages o.pods,
            rsContains img e.2 = false ∧ rsContains e.2 img = false) →
          reconcilePollOnce o expected = false) := by
  intro obs expected
  have hpoll : ∀ o : ClusterObs,
      reconcilePollOnce o expected = true ↔
        (check_tektonconfig_ready o.tcConditions = true
          ∧ verify_pod_images o.pods expected = true) := by
    intro o
    by_cases hc : check_tektonconfig_ready o.tcConditions = true <;>
      simp [reconcilePollOnce, hc]
  refine ⟨?_, hpoll, ?_⟩
  · intro hs
    obtain ⟨j, hj1, hj2, hj3⟩ := waitLoop_success_poll obs expected 20 1 10 hs
    obtain ⟨hr, hv⟩ := (hpoll (obs j)).mp hj3
    exact ⟨j, hj1, by omega, hr, hv⟩
  · intro o e he hc himgs
    have hv : verify_pod_images o.pods expected = false := by
      rw [verify_pod_images]
      refine List.all_eq_false.mpr ⟨e, he, ?_⟩
      intro hany
      rw [List.any_eq_true] at hany
      obtain ⟨img, himg, hq⟩ := hany
      rcases himgs img himg with ⟨h1, h2⟩
      simp [h1, h2] at hq
    simp [reconcilePollOnce, hc, hv]

/-- Witness for C4's negative fixture: Ready=True but the only pod image
matches the expected image in neither direction, so the poll reports not
converged. -/
theorem reconcile_requires_both_witness :
    reconcilePollOnce ⟨[⟨"Ready", "True"⟩], [⟨[some "registry/other"]⟩]⟩
        [("IMAGE_PIPELINE_CONTROLLER", "upstream/controller")] = false :=
  (reconcile_requires_both
      (fun _ => ⟨[⟨"Ready", "True"⟩], [⟨[some "registry/other"]⟩]⟩)
      [("IMAGE_PIPELINE_CONTROLLER", "upstream/controller")]).2.2
    ⟨[⟨"Ready", "True"⟩], [⟨[some "registry/other"]⟩]⟩
    ("IMAGE_PIPELINE_CONTROLLER", "upstream/controller")
    (by decide) (by decide) (by decide)
